import Mathlib

/-!
Verification of the c9 distributed object store against its specification.

The definitions below are a shallow embedding of the repository's Python
sources.  File contents are modelled as lists of bytes (`List Nat`), the
bucket's on-disk directory as an association list from filename to content,
and Python's unbounded integers as `Int`.  Each definition's doc comment
names the source function it embeds.
-/

namespace C9

/-- Byte strings (Python `bytes`) as lists of byte values. -/
abbrev Bytes := List Nat

/-- `CHUNK_SIZE` from `src/lib/middleware.py`. -/
def CHUNK_SIZE : Nat := 1024

/-- `StatusCode` enum from `src/c9/buckets/api.py`. -/
inductive StatusCode
  | OK
  | NOT_FOUND
  | ERROR
  | INSUFFICIENT_SPACE
deriving DecidableEq, Repr

/-- `Status` enum from `src/lib/middleware.py` (manager-side responses). -/
inductive Status
  | OK
  | ERROR
  | NOT_FOUND
deriving DecidableEq, Repr

/-- `Region` literal type from `src/c9/buckets/api.py`. -/
inductive Region
  | usEast
  | usWest
  | eu
  | asia
  | latinAmerica
  | africa
  | australia
deriving DecidableEq, Repr

/-- `Spec` TypedDict from `src/c9/buckets/api.py`: per-bucket capacity
counters.  Python integers are unbounded, hence `Int`. -/
structure Spec where
  files_count : Int
  available_space : Int
  used_space : Int
deriving DecidableEq, Repr

/-- `DISTANCE_MATRIX` from `src/manager/server.py`: region-to-region
distances.  The Python dict has no entry for a region paired with itself,
so the lookup is partial (`none` exactly on self-pairs). -/
def DISTANCE_MATRIX : Region → Region → Option Nat
  | .usEast, .usWest => some 2500
  | .usEast, .eu => some 4000
  | .usEast, .asia => some 7000
  | .usEast, .latinAmerica => some 1500
  | .usEast, .africa => some 6000
  | .usEast, .australia => some 9000
  | .usWest, .usEast => some 2500
  | .usWest, .eu => some 3500
  | .usWest, .asia => some 6500
  | .usWest, .latinAmerica => some 2000
  | .usWest, .africa => some 5500
  | .usWest, .australia => some 8500
  | .eu, .usEast => some 4000
  | .eu, .usWest => some 3500
  | .eu, .asia => some 6000
  | .eu, .latinAmerica => some 5000
  | .eu, .africa => some 2000
  | .eu, .australia => some 8000
  | .asia, .usEast => some 7000
  | .asia, .usWest => some 6500
  | .asia, .eu => some 6000
  | .asia, .latinAmerica => some 11000
  | .asia, .africa => some 5000
  | .asia, .australia => some 3000
  | .latinAmerica, .usEast => some 1500
  | .latinAmerica, .usWest => some 2000
  | .latinAmerica, .eu => some 5000
  | .latinAmerica, .asia => some 11000
  | .latinAmerica, .africa => some 4000
  | .latinAmerica, .australia => some 12000
  | .africa, .usEast => some 6000
  | .africa, .usWest => some 5500
  | .africa, .eu => some 2000
  | .africa, .asia => some 5000
  | .africa, .latinAmerica => some 4000
  | .africa, .australia => some 7000
  | .australia, .usEast => some 9000
  | .australia, .usWest => some 8500
  | .australia, .eu => some 8000
  | .australia, .asia => some 3000
  | .australia, .latinAmerica => some 12000
  | .australia, .africa => some 7000
  | _, _ => none

/-! ## Storage node (`Bucket`, `src/c9/buckets/__init__.py`) -/

/-- The state a `Bucket` server carries across commands: its spec counters
and the files in its directory, as an association list from filename to
content (filenames are unique within one directory). -/
structure BucketState where
  spec : Spec
  files : List (String × Bytes)
deriving DecidableEq, Repr

/-- Directory read: the content at `name`, when the file exists
(`path.exists()` / `file.read()`). -/
def lookupFile : List (String × Bytes) → String → Option Bytes
  | [], _ => none
  | (n, c) :: rest, name => if n = name then some c else lookupFile rest name

/-- Directory write (`path.open("wb")` then `file.write(content)`):
overwrites the entry when the filename exists, otherwise adds it. -/
def writeFile : List (String × Bytes) → String → Bytes → List (String × Bytes)
  | [], name, content => [(name, content)]
  | (n, c) :: rest, name, content =>
    if n = name then (n, content) :: rest
    else (n, c) :: writeFile rest name content

/-- Directory removal (`path.unlink()`). -/
def removeFile : List (String × Bytes) → String → List (String × Bytes)
  | [], _ => []
  | (n, c) :: rest, name =>
    if n = name then rest else (n, c) :: removeFile rest name

/-- `get_directory_size` from `src/c9/buckets/utils.py`: total size of the
files under the bucket's directory. -/
def get_directory_size (files : List (String × Bytes)) : Int :=
  files.foldl (fun acc f => acc + (f.2.length : Int)) 0

/-- What `Bucket.handle_get` sends back: the status chunk, the metadata
line `filename length`, and the raw content bytes (the latter two only on
OK). -/
structure GetReply where
  status : StatusCode
  meta : Option (String × Nat)
  content : Option Bytes
deriving DecidableEq, Repr

/-- `Bucket.handle_get`: reply OK with the file's bytes when it exists,
NOT_FOUND otherwise. -/
def handle_get (st : BucketState) (filename : String) : GetReply :=
  match lookupFile st.files filename with
  | some content => ⟨.OK, some (filename, content.length), some content⟩
  | none => ⟨.NOT_FOUND, none, none⟩

/-- `Bucket.handle_put`: with `content` the bytes delivered by the single
`client.receive()` call, reject with INSUFFICIENT_SPACE when the content
is larger than `available_space`; otherwise write the file, subtract the
length from `available_space`, recompute `used_space` from the directory,
and add one to `files_count`. -/
def handle_put (st : BucketState) (filename : String) (content : Bytes) :
    BucketState × StatusCode :=
  if (content.length : Int) > st.spec.available_space then
    (st, .INSUFFICIENT_SPACE)
  else
    let files := writeFile st.files filename content
    (⟨⟨st.spec.files_count + 1,
       st.spec.available_space - (content.length : Int),
       get_directory_size files⟩,
      files⟩, .OK)

/-- `Bucket.handle_delete`: when the file exists, add its on-disk size
back to `available_space` and remove it, replying OK; otherwise reply
NOT_FOUND.  Note the source touches neither `files_count` nor
`used_space` here. -/
def handle_delete (st : BucketState) (filename : String) :
    BucketState × StatusCode :=
  match lookupFile st.files filename with
  | some content =>
    (⟨⟨st.spec.files_count,
       st.spec.available_space + (content.length : Int),
       st.spec.used_space⟩,
      removeFile st.files filename⟩, .OK)
  | none => (st, .NOT_FOUND)

/-! ## Wire protocol (`Connection`, `src/lib/middleware.py`) -/

/-- `Connection.receive` is a single `socket.recv(CHUNK_SIZE)` call: the
kernel delivers some prefix of the pending byte stream, of at most
`CHUNK_SIZE` bytes.  `k` is the number of bytes the kernel would deliver
(capped by the chunk size, as `recv` is). -/
def receive (stream : Bytes) (k : Nat) : Bytes :=
  stream.take (min k CHUNK_SIZE)

/-- Python's UTF-8 encoding of one code point, as the list of its bytes. -/
def utf8EncodeChar (c : Nat) : Bytes :=
  if c < 0x80 then [c]
  else if c < 0x800 then
    [0xC0 + c / 0x40, 0x80 + c % 0x40]
  else if c < 0x10000 then
    [0xE0 + c / 0x1000, 0x80 + (c / 0x40) % 0x40, 0x80 + c % 0x40]
  else
    [0xF0 + c / 0x40000, 0x80 + (c / 0x1000) % 0x40,
     0x80 + (c / 0x40) % 0x40, 0x80 + c % 0x40]

/-- `text.encode(ENCODING)` for a Python `str` modelled as its list of
Unicode code points. -/
def utf8Encode (s : List Nat) : Bytes :=
  (s.map utf8EncodeChar).flatten

/-- `Connection.send_chunk` from `src/lib/middleware.py`: raise
`ValueError` when `len(content)` (the number of *characters*) exceeds
`CHUNK_SIZE`; otherwise left-justify with spaces to `CHUNK_SIZE`
characters, encode, and send the result as one frame.  The `ok` value is
the byte frame handed to `send`. -/
def send_chunk (content : List Nat) : Except Unit Bytes :=
  if content.length > CHUNK_SIZE then .error ()
  else .ok (utf8Encode (content ++ List.replicate (CHUNK_SIZE - content.length) 0x20))

/-! ## Manager placement (`UploadHandler`, `src/c9/manager/handlers.py`) -/

/-- Manager-side proxy of a bucket (`Client` in `src/c9/buckets/api.py`),
with the fields `UploadHandler` consults. -/
structure BucketHandle where
  id : String
  region : Region
  spec : Option Spec
deriving DecidableEq, Repr

/-- `UploadHandler.get_bucket_available_space`: the handle's cached
`available_space`, or 0 when no spec has been cached. -/
def get_bucket_available_space (b : BucketHandle) : Int :=
  match b.spec with
  | none => 0
  | some s => s.available_space

/-- Python's `sorted(xs, key)[0]` on a nonempty list with `Nat` keys:
Timsort is stable, so the result is the first element attaining the
minimal key.  Folding with a strict comparison keeps the earliest
minimum. -/
def pickMin (key : BucketHandle → Nat) : BucketHandle → List BucketHandle → BucketHandle
  | best, [] => best
  | best, x :: rest => pickMin key (if key x < key best then x else best) rest

/-- The sort key `DISTANCE_MATRIX[self.context.region][bucket.region]`
used by `UploadHandler.select_bucket`; only consulted after the
`DISTANCE_MATRIX` entries of all candidates have been checked to exist,
so the default is never reached there. -/
def bucketKey (region : Region) (b : BucketHandle) : Nat :=
  (DISTANCE_MATRIX region b.region).getD 0

/-- `UploadHandler.select_bucket`: filter the buckets whose available
space is at least `size`; when none remain, return `none`; otherwise sort
by distance from the manager's region and take the first.  Python's
`sorted` evaluates the key on every element, so a missing
`DISTANCE_MATRIX` entry for any candidate raises `KeyError`
(`Except.error`). -/
def select_bucket (region : Region) (size : Int) (buckets : List BucketHandle) :
    Except Unit (Option BucketHandle) :=
  let available := buckets.filter fun b => decide (size ≤ get_bucket_available_space b)
  match available with
  | [] => .ok none
  | b :: rest =>
    if (b :: rest).all (fun x => (DISTANCE_MATRIX region x.region).isSome) then
      .ok (some (pickMin (bucketKey region) b rest))
    else .error ()

/-- `UploadHandler._handle`: with `content` the bytes delivered by the
single `receive()` call, select a primary bucket for `len(content)`
bytes; when selection raises or yields no bucket, answer ERROR with no
writes.  Then select a backup over the known buckets whose id differs
from the primary's; a `None` backup is skipped by the `isinstance`
check.  The first component lists the `put` calls performed, in order:
`(bucket id, filename, content)`. -/
def upload_handle (region : Region) (buckets : List BucketHandle)
    (filename : String) (content : Bytes) :
    List (String × String × Bytes) × Status :=
  match select_bucket region (content.length : Int) buckets with
  | .error _ => ([], .ERROR)
  | .ok none => ([], .ERROR)
  | .ok (some main) =>
    match select_bucket region (content.length : Int)
        (buckets.filter fun b => b.id != main.id) with
    | .error _ => ([], .ERROR)
    | .ok none => ([(main.id, filename, content)], .OK)
    | .ok (some backup) =>
      ([(main.id, filename, content), (backup.id, filename, content)], .OK)

/-! ## Registry (`Subject.listen`, `src/c9/buckets/api.py`) -/

/-- Digit-string accumulator for `int_of_string`. -/
def parseNatDigits : List Char → Nat → Option Nat
  | [], acc => some acc
  | c :: rest, acc =>
    if c.isDigit then parseNatDigits rest (10 * acc + (c.toNat - 48)) else none

/-- Python's `int(s)` on the canonical integer strings the buckets send
(optional minus sign followed by digits); any other string raises
`ValueError` (`none`). -/
def int_of_string (s : String) : Option Int :=
  match s.data with
  | [] => none
  | '-' :: rest =>
    match rest with
    | [] => none
    | _ => (parseNatDigits rest 0).map fun n => -(n : Int)
  | l => (parseNatDigits l 0).map fun n => (n : Int)

/-- The handle `Subject.listen` constructs for a `register` event (the
`Client` of `src/c9/buckets/api.py` as the registry populates it):
identity and address fields straight from the message tokens, numeric
spec fields through `int(...)`. -/
structure RClient where
  id : String
  host : String
  port : Int
  region : String
  path : String
  spec : Option Spec
deriving DecidableEq, Repr

/-- One observer callback performed by `Subject.listen`. -/
inductive Event
  | registered (client : RClient)
  | unregistered (id : String)
  | updated (id : String) (spec : Spec)
deriving DecidableEq, Repr

/-- One iteration of the `Subject.listen` serving loop, for a received
line `command args...`.  Observers are identified by their position-of-
subscription (`Subject.subscribe` appends, so the list is in subscription
order).  The result lists the callbacks performed, in order, as
`(observer, event)` pairs.  The loop body has no exception handler, so a
tuple-unpacking error on a malformed event line, or a failed `int(...)`
conversion, raises out of `listen` (`Except.error`); a command matching
no `case` falls through with no callback and the loop continues. -/
def registryStep (observers : List Nat) (command : String) (args : List String) :
    Except Unit (List (Nat × Event)) :=
  if command = "register" then
    match args with
    | [id, host, port, region, path, fc, av, us] =>
      match int_of_string port, int_of_string fc, int_of_string av, int_of_string us with
      | some p, some f, some a, some u =>
        .ok (observers.map fun o => (o, .registered ⟨id, host, p, region, path, some ⟨f, a, u⟩⟩))
      | _, _, _, _ => .error ()
    | _ => .error ()
  else if command = "unregister" then
    match args with
    | id :: _ => .ok (observers.map fun o => (o, .unregistered id))
    | [] => .error ()
  else if command = "update" then
    match args with
    | [id, fc, av, us] =>
      match int_of_string fc, int_of_string av, int_of_string us with
      | some f, some a, some u =>
        .ok (observers.map fun o => (o, .updated id ⟨f, a, u⟩))
      | _, _, _ => .error ()
    | _ => .error ()
  else
    .ok []

/-- `Manager.updated` (`src/c9/manager/__init__.py`): the callback does
`self._buckets[id].spec = spec`, which raises `KeyError` when `id` is not
a known bucket.  The callback runs synchronously inside the registry's
serving loop, so the error propagates into `Subject.listen`. -/
def manager_updated (knownIds : List String) (id : String) : Except Unit Unit :=
  if id ∈ knownIds then .ok () else .error ()

/-! ## Storage-node serving loop (`Bucket.run`, `src/c9/buckets/__init__.py`) -/

/-- Python's `str.lower()` on the ASCII command verbs. -/
def lower (s : String) : String := ⟨s.data.map Char.toLower⟩

/-- The dispatch performed by one iteration of `Bucket.run`:
`getattr(self, f"handle_{command.lower()}")(client, args)`.  There is no
exception handler around it, so an unknown verb (`AttributeError` from
`getattr`) or a handler hitting `args[0]` on an empty argument list
(`IndexError`) raises out of `run` and terminates the serving loop
(`Except.error`).  `payload` is what the single `client.receive()` inside
`handle_put` would deliver. -/
def bucketDispatch (st : BucketState) (command : String) (args : List String)
    (payload : Bytes) : Except Unit (BucketState × StatusCode) :=
  if lower command = "get" then
    match args with
    | filename :: _ => .ok (st, (handle_get st filename).status)
    | [] => .error ()
  else if lower command = "put" then
    match args with
    | filename :: _ => .ok (handle_put st filename payload)
    | [] => .error ()
  else if lower command = "delete" then
    match args with
    | filename :: _ => .ok (handle_delete st filename)
    | [] => .error ()
  else if lower command = "list" then
    .ok (st, .OK)
  else if lower command = "spec" then
    .ok (st, .OK)
  else
    .error ()

/-! ## Manager serving loop (`Manager.run`, `src/c9/manager/__init__.py`) -/

/-- The command names registered in `HandlerRegistry.handlers` by the
metaclass: `UploadHandler` and `DownloadHandler` set `name` to these. -/
def HandlerRegistry_handlers : List String := ["upload", "download"]

/-- `HandlerRegistry.get`: `dict.get` on the handler table. -/
def HandlerRegistry_get (command : String) : Option String :=
  if command ∈ HandlerRegistry_handlers then some command else none

/-- Observable effects of one iteration of `Manager.run` on the accepted
connection and on the accept loop. -/
structure ManagerStepResult where
  responded : Bool
  closed : Bool
  loopContinues : Bool
deriving DecidableEq, Repr

/-- One iteration of `Manager.run` for a received line whose tokens are
`tokens` (`receive().decode().strip().split(" ")`).  When
`HandlerRegistry.get` yields no handler, the body raises
`RuntimeError("Invalid command")`, which the surrounding `try` logs: no
response is sent, nothing closes the accepted connection (only the
spawned handler thread would have closed it), and the loop continues.
When a handler exists, the spawned thread attempts a response and closes
the connection in its `finally`.  An empty token list (impossible for
`str.split`, which returns at least one token) would raise the same
caught unpacking error. -/
def managerStep (tokens : List String) : ManagerStepResult :=
  match tokens with
  | [] => ⟨false, false, true⟩
  | command :: _ =>
    match HandlerRegistry_get command with
    | none => ⟨false, false, true⟩
    | some _ => ⟨true, true, true⟩

/-! ## Lemmas about the bucket directory -/

theorem lookupFile_writeFile_self (files : List (String × Bytes)) (name : String)
    (content : Bytes) :
    lookupFile (writeFile files name content) name = some content := by
  induction files with
  | nil => simp [writeFile, lookupFile]
  | cons hd tl ih =>
    obtain ⟨n, c⟩ := hd
    by_cases h : n = name
    · simp [writeFile, h, lookupFile]
    · simp [writeFile, h, lookupFile, ih]

/-! ## Lemmas about placement -/

theorem pickMin_mem (key : BucketHandle → Nat) (l : List BucketHandle) :
    ∀ b : BucketHandle, pickMin key b l ∈ b :: l := by
  induction l with
  | nil => intro b; simp [pickMin]
  | cons x rest ih =>
    intro b
    have h := ih (if key x < key b then x else b)
    simp only [pickMin]
    rcases List.mem_cons.mp h with h1 | h1
    · rw [h1]
      by_cases hk : key x < key b <;> simp [hk]
    · simp [h1]

theorem pickMin_le (key : BucketHandle → Nat) (l : List BucketHandle) :
    ∀ b x, x ∈ b :: l → key (pickMin key b l) ≤ key x := by
  induction l with
  | nil =>
    intro b x hx
    simp only [List.mem_singleton] at hx
    simp [pickMin, hx]
  | cons y rest ih =>
    intro b x hx
    simp only [pickMin]
    have hself : key (pickMin key (if key y < key b then y else b) rest)
        ≤ key (if key y < key b then y else b) :=
      ih _ _ (List.mem_cons_self _ _)
    rcases List.mem_cons.mp hx with h1 | h1
    · subst h1
      refine le_trans hself ?_
      by_cases hk : key y < key x <;> simp [hk]
      omega
    · rcases List.mem_cons.mp h1 with h2 | h2
      · subst h2
        refine le_trans hself ?_
        by_cases hk : key x < key b <;> simp [hk]
        omega
      · exact ih _ _ (List.mem_cons_of_mem _ h2)

theorem DISTANCE_MATRIX_isSome {a b : Region} (h : a ≠ b) :
    (DISTANCE_MATRIX a b).isSome := by
  cases a <;> cases b <;> simp_all [DISTANCE_MATRIX]

theorem select_bucket_ok_some (region : Region) (size : Int)
    (buckets : List BucketHandle) (m : BucketHandle)
    (h : select_bucket region size buckets = .ok (some m)) :
    m ∈ buckets ∧ size ≤ get_bucket_available_space m ∧
    ∀ b ∈ buckets, size ≤ get_bucket_available_space b →
      bucketKey region m ≤ bucketKey region b := by
  unfold select_bucket at h
  cases hav : buckets.filter fun b => decide (size ≤ get_bucket_available_space b) with
  | nil => rw [hav] at h; simp at h
  | cons b rest =>
    rw [hav] at h
    dsimp only at h
    by_cases hall : (b :: rest).all fun x => (DISTANCE_MATRIX region x.region).isSome
    · rw [if_pos hall] at h
      simp only [Except.ok.injEq, Option.some.injEq] at h
      have hmem : m ∈ b :: rest := h ▸ pickMin_mem (bucketKey region) rest b
      have hmem' : m ∈ buckets.filter fun b => decide (size ≤ get_bucket_available_space b) :=
        hav ▸ hmem
      rcases List.mem_filter.mp hmem' with ⟨hmb, hsz⟩
      refine ⟨hmb, by simpa using hsz, ?_⟩
      intro x hx hxsz
      have hxmem : x ∈ b :: rest := by
        rw [← hav]
        exact List.mem_filter.mpr ⟨hx, by simpa using hxsz⟩
      exact h ▸ pickMin_le (bucketKey region) rest b x hxmem
    · rw [if_neg hall] at h
      simp at h

theorem select_bucket_ok_none_iff (region : Region) (size : Int)
    (buckets : List BucketHandle) :
    select_bucket region size buckets = .ok none ↔
      ∀ b ∈ buckets, ¬ size ≤ get_bucket_available_space b := by
  unfold select_bucket
  cases hav : buckets.filter fun b => decide (size ≤ get_bucket_available_space b) with
  | nil =>
    dsimp only
    simp only [true_iff]
    intro b hb hsz
    have : b ∈ buckets.filter fun b => decide (size ≤ get_bucket_available_space b) :=
      List.mem_filter.mpr ⟨hb, by simpa using hsz⟩
    rw [hav] at this
    simp at this
  | cons b rest =>
    dsimp only
    have hb : b ∈ buckets.filter fun b => decide (size ≤ get_bucket_available_space b) := by
      rw [hav]; exact List.mem_cons_self _ _
    rcases List.mem_filter.mp hb with ⟨hmb, hsz⟩
    constructor
    · intro h
      by_cases hall : (b :: rest).all fun x => (DISTANCE_MATRIX region x.region).isSome <;>
        simp [hall] at h
    · intro h
      exact absurd (by simpa using hsz) (h b hmb)

theorem select_bucket_ne_error (region : Region) (size : Int)
    (buckets : List BucketHandle)
    (hreg : ∀ b ∈ buckets, size ≤ get_bucket_available_space b → b.region ≠ region) :
    select_bucket region size buckets ≠ .error () := by
  unfold select_bucket
  cases hav : buckets.filter fun b => decide (size ≤ get_bucket_available_space b) with
  | nil => simp
  | cons b rest =>
    dsimp only
    have hall : (b :: rest).all fun x => (DISTANCE_MATRIX region x.region).isSome := by
      rw [List.all_eq_true]
      intro x hx
      have hxf : x ∈ buckets.filter fun b => decide (size ≤ get_bucket_available_space b) :=
        hav ▸ hx
      rcases List.mem_filter.mp hxf with ⟨hxb, hxsz⟩
      exact DISTANCE_MATRIX_isSome (fun he => hreg x hxb (by simpa using hxsz) he.symm)
    rw [if_pos hall]
    simp

/-! ## Claim C1 -/

/-- C1: after a PUT of a payload that replies OK, the bucket's
`available_space` decreases by exactly the payload length, `files_count`
increases by 1, and a subsequent GET of that filename replies OK and
returns exactly the bytes that were written. -/
theorem put_then_get (st : BucketState) (filename : String) (content : Bytes)
    (h : (handle_put st filename content).2 = .OK) :
    (handle_put st filename content).1.spec.available_space
        = st.spec.available_space - (content.length : Int) ∧
    (handle_put st filename content).1.spec.files_count = st.spec.files_count + 1 ∧
    (handle_get (handle_put st filename content).1 filename).status = .OK ∧
    (handle_get (handle_put st filename content).1 filename).content = some content := by
  unfold handle_put at h ⊢
  by_cases hc : (content.length : Int) > st.spec.available_space
  · simp [hc] at h
  · simp [hc, handle_get, lookupFile_writeFile_self]

/-- Witness for C1 at a concrete bucket state and payload. -/
theorem put_then_get_witness :
    (handle_put ⟨⟨0, 10, 0⟩, []⟩ "f" [1, 2, 3]).1.spec.available_space
        = 10 - (([1, 2, 3] : Bytes).length : Int) ∧
    (handle_put ⟨⟨0, 10, 0⟩, []⟩ "f" [1, 2, 3]).1.spec.files_count = 0 + 1 ∧
    (handle_get (handle_put ⟨⟨0, 10, 0⟩, []⟩ "f" [1, 2, 3]).1 "f").status = .OK ∧
    (handle_get (handle_put ⟨⟨0, 10, 0⟩, []⟩ "f" [1, 2, 3]).1 "f").content
        = some [1, 2, 3] :=
  put_then_get ⟨⟨0, 10, 0⟩, []⟩ "f" [1, 2, 3] (by decide)

/-! ## Claim C4 -/

/-- C4: PUT replies INSUFFICIENT_SPACE exactly when the received payload
is strictly larger than the current `available_space`, and on such a
rejection the whole bucket state — spec fields and directory alike — is
unchanged. -/
theorem put_insufficient_space (st : BucketState) (filename : String) (content : Bytes) :
    ((handle_put st filename content).2 = .INSUFFICIENT_SPACE
        ↔ st.spec.available_space < (content.length : Int)) ∧
    (st.spec.available_space < (content.length : Int) →
      (handle_put st filename content).1 = st) := by
  unfold handle_put
  by_cases hc : (content.length : Int) > st.spec.available_space
  · simp [hc]
  · simp [hc]

/-- Witness for C4 at a concrete bucket state and payload. -/
theorem put_insufficient_space_witness :
    ((handle_put ⟨⟨0, 2, 0⟩, []⟩ "f" [1, 2, 3]).2 = .INSUFFICIENT_SPACE
        ↔ (2 : Int) < (([1, 2, 3] : Bytes).length : Int)) ∧
    ((2 : Int) < (([1, 2, 3] : Bytes).length : Int) →
      (handle_put ⟨⟨0, 2, 0⟩, []⟩ "f" [1, 2, 3]).1 = ⟨⟨0, 2, 0⟩, []⟩) :=
  put_insufficient_space ⟨⟨0, 2, 0⟩, []⟩ "f" [1, 2, 3]

/-! ## Claim C5 -/

/-- C5 counterexample: PUT of a 3-byte file into an empty bucket followed
by DELETE of the same file leaves `files_count` at 1, not at its pre-PUT
value 0: `handle_delete` never decrements `files_count`. -/
theorem put_delete_files_count_cex :
    (handle_put ⟨⟨0, 10, 0⟩, []⟩ "f" [1, 2, 3]).2 = .OK ∧
    (handle_delete (handle_put ⟨⟨0, 10, 0⟩, []⟩ "f" [1, 2, 3]).1 "f").2 = .OK ∧
    (handle_delete (handle_put ⟨⟨0, 10, 0⟩, []⟩ "f" [1, 2, 3]).1 "f").1.spec.files_count
        ≠ 0 := by
  decide

/-- C5 amended: a successful PUT followed by a DELETE of the same file
restores `available_space` to its pre-PUT value, while `files_count`
remains one greater than its pre-PUT value (the DELETE handler does not
decrement it). -/
theorem put_then_delete (st : BucketState) (filename : String) (content : Bytes)
    (h : (handle_put st filename content).2 = .OK) :
    (handle_delete (handle_put st filename content).1 filename).2 = .OK ∧
    (handle_delete (handle_put st filename content).1 filename).1.spec.available_space
        = st.spec.available_space ∧
    (handle_delete (handle_put st filename content).1 filename).1.spec.files_count
        = st.spec.files_count + 1 := by
  unfold handle_put at h ⊢
  by_cases hc : (content.length : Int) > st.spec.available_space
  · simp [hc] at h
  · simp [hc, handle_delete, lookupFile_writeFile_self]

/-! ## Claim C2 -/

/-- C2 counterexample: a bucket in the manager's own region
(`latin-america`) with ample space qualifies for a 10-byte upload, yet —
because `DISTANCE_MATRIX` has no entry for a region paired with itself —
the sort key lookup raises `KeyError`: selection neither returns that
bucket nor `none`, and the upload answers ERROR even though a bucket
qualifies, contradicting the claim as stated. -/
theorem upload_placement_cex :
    ((10 : Int) ≤ get_bucket_available_space ⟨"b1", .latinAmerica, some ⟨0, 100, 0⟩⟩) ∧
    select_bucket .latinAmerica 10 [⟨"b1", .latinAmerica, some ⟨0, 100, 0⟩⟩]
        = .error () ∧
    (upload_handle .latinAmerica [⟨"b1", .latinAmerica, some ⟨0, 100, 0⟩⟩] "f"
        [0, 0, 0, 0, 0, 0, 0, 0, 0, 0]).2 = .ERROR :=
  ⟨by decide, by rfl, by rfl⟩

/-- C2 amended: provided no bucket qualifying for the required size lies
in the manager's own region (the distance matrix has no self-pair
entries, so such a bucket makes the lookup raise), selection never
raises; it yields `none` exactly when no bucket's `available_space`
reaches the required size — in which case the upload replies ERROR — and
otherwise selects a qualifying bucket of minimal distance from the
manager's region among all qualifying buckets. -/
theorem upload_placement (region : Region) (size : Int) (buckets : List BucketHandle)
    (hreg : ∀ b ∈ buckets, size ≤ get_bucket_available_space b → b.region ≠ region) :
    select_bucket region size buckets ≠ .error () ∧
    (select_bucket region size buckets = .ok none ↔
      ∀ b ∈ buckets, ¬ size ≤ get_bucket_available_space b) ∧
    (∀ m, select_bucket region size buckets = .ok (some m) →
      m ∈ buckets ∧ size ≤ get_bucket_available_space m ∧
      ∀ b ∈ buckets, size ≤ get_bucket_available_space b →
        bucketKey region m ≤ bucketKey region b) ∧
    ∀ filename content, ((content : Bytes).length : Int) = size →
      select_bucket region size buckets = .ok none →
      (upload_handle region buckets filename content).2 = .ERROR := by
  refine ⟨select_bucket_ne_error region size buckets hreg,
          select_bucket_ok_none_iff region size buckets,
          fun m hm => select_bucket_ok_some region size buckets m hm,
          ?_⟩
  intro filename content hlen hnone
  unfold upload_handle
  rw [hlen, hnone]

/-- Witness for the amended C2: two buckets outside the manager's region,
only the nearer `us-east` one with enough space for 50 bytes. -/
theorem upload_placement_witness :
    select_bucket .latinAmerica 50
        [⟨"b1", .usEast, some ⟨0, 100, 0⟩⟩, ⟨"b2", .eu, some ⟨0, 10, 0⟩⟩] ≠ .error () ∧
    (select_bucket .latinAmerica 50
        [⟨"b1", .usEast, some ⟨0, 100, 0⟩⟩, ⟨"b2", .eu, some ⟨0, 10, 0⟩⟩] = .ok none ↔
      ∀ b ∈ ([⟨"b1", .usEast, some ⟨0, 100, 0⟩⟩,
              ⟨"b2", .eu, some ⟨0, 10, 0⟩⟩] : List BucketHandle),
        ¬ (50 : Int) ≤ get_bucket_available_space b) ∧
    (∀ m, select_bucket .latinAmerica 50
        [⟨"b1", .usEast, some ⟨0, 100, 0⟩⟩, ⟨"b2", .eu, some ⟨0, 10, 0⟩⟩]
          = .ok (some m) →
      m ∈ ([⟨"b1", .usEast, some ⟨0, 100, 0⟩⟩,
            ⟨"b2", .eu, some ⟨0, 10, 0⟩⟩] : List BucketHandle) ∧
      (50 : Int) ≤ get_bucket_available_space m ∧
      ∀ b ∈ ([⟨"b1", .usEast, some ⟨0, 100, 0⟩⟩,
              ⟨"b2", .eu, some ⟨0, 10, 0⟩⟩] : List BucketHandle),
        (50 : Int) ≤ get_bucket_available_space b →
          bucketKey .latinAmerica m ≤ bucketKey .latinAmerica b) ∧
    ∀ filename content, ((content : Bytes).length : Int) = 50 →
      select_bucket .latinAmerica 50
          [⟨"b1", .usEast, some ⟨0, 100, 0⟩⟩, ⟨"b2", .eu, some ⟨0, 10, 0⟩⟩] = .ok none →
      (upload_handle .latinAmerica
          [⟨"b1", .usEast, some ⟨0, 100, 0⟩⟩, ⟨"b2", .eu, some ⟨0, 10, 0⟩⟩]
          filename content).2 = .ERROR :=
  upload_placement .latinAmerica 50
    [⟨"b1", .usEast, some ⟨0, 100, 0⟩⟩, ⟨"b2", .eu, some ⟨0, 10, 0⟩⟩] (by decide)

/-! ## Claim C3 -/

/-- C3: a successful upload writes to one bucket or to two buckets whose
ids differ — the backup is selected over the known buckets excluding the
primary's id, so its id can never equal the primary's — the primary
write is always attempted first (the write list is ordered), and when no
backup qualifies the upload proceeds with the primary only. -/
theorem upload_replication (region : Region) (buckets : List BucketHandle)
    (filename : String) (content : Bytes) :
    ((upload_handle region buckets filename content).2 = .OK →
      (∃ p, (upload_handle region buckets filename content).1.map (fun w => w.1) = [p]) ∨
      (∃ p q, (upload_handle region buckets filename content).1.map (fun w => w.1)
          = [p, q] ∧ q ≠ p)) ∧
    ∀ m, select_bucket region (content.length : Int) buckets = .ok (some m) →
      select_bucket region (content.length : Int)
          (buckets.filter fun b => b.id != m.id) = .ok none →
      (upload_handle region buckets filename content).1 = [(m.id, filename, content)] ∧
      (upload_handle region buckets filename content).2 = .OK := by
  constructor
  · intro hok
    unfold upload_handle at hok ⊢
    cases h1 : select_bucket region ((content.length : Nat) : Int) buckets with
    | error e => rw [h1] at hok; simp at hok
    | ok o =>
      cases o with
      | none => rw [h1] at hok; simp at hok
      | some main =>
        dsimp only
        cases h2 : select_bucket region ((content.length : Nat) : Int)
            (buckets.filter fun b => b.id != main.id) with
        | error e => rw [h1] at hok; dsimp only at hok; rw [h2] at hok; simp at hok
        | ok o2 =>
          cases o2 with
          | none => exact Or.inl ⟨main.id, rfl⟩
          | some backup =>
            refine Or.inr ⟨main.id, backup.id, rfl, ?_⟩
            have hmem := (select_bucket_ok_some region _ _ backup h2).1
            rcases List.mem_filter.mp hmem with ⟨_, hne⟩
            simpa using hne
  · intro m hm hnone
    unfold upload_handle
    rw [hm]
    dsimp only
    rw [hnone]
    exact ⟨rfl, rfl⟩

/-- Witness for C3: manager in `latin-america`, buckets in `us-east` and
`eu` both with space for the 1-byte payload; the upload succeeds and the
two write targets differ. -/
theorem upload_replication_witness :
    (∃ p, (upload_handle .latinAmerica
        [⟨"b1", .usEast, some ⟨0, 100, 0⟩⟩, ⟨"b2", .eu, some ⟨0, 100, 0⟩⟩]
        "f" [7]).1.map (fun w => w.1) = [p]) ∨
    (∃ p q, (upload_handle .latinAmerica
        [⟨"b1", .usEast, some ⟨0, 100, 0⟩⟩, ⟨"b2", .eu, some ⟨0, 100, 0⟩⟩]
        "f" [7]).1.map (fun w => w.1) = [p, q] ∧ q ≠ p) :=
  (upload_replication .latinAmerica
    [⟨"b1", .usEast, some ⟨0, 100, 0⟩⟩, ⟨"b2", .eu, some ⟨0, 100, 0⟩⟩]
    "f" [7]).1 (by rfl)

/-- Witness for the amended C5 at a concrete bucket state and payload. -/
theorem put_then_delete_witness :
    (handle_delete (handle_put ⟨⟨0, 10, 0⟩, []⟩ "f" [1, 2, 3]).1 "f").2 = .OK ∧
    (handle_delete (handle_put ⟨⟨0, 10, 0⟩, []⟩ "f" [1, 2, 3]).1 "f").1.spec.available_space
        = 10 ∧
    (handle_delete (handle_put ⟨⟨0, 10, 0⟩, []⟩ "f" [1, 2, 3]).1 "f").1.spec.files_count
        = 0 + 1 :=
  put_then_delete ⟨⟨0, 10, 0⟩, []⟩ "f" [1, 2, 3] (by decide)

/-! ## Claim C6 -/

/-- C6: a `register` event received by the registry results in every
currently subscribed observer receiving exactly one `registered`
callback, carrying a handle whose id, host, port, region, path and spec
fields equal the transmitted fields, with the callbacks in subscription
order (the event list maps onto the observer list). -/
theorem register_fanout (observers : List Nat) (hnd : observers.Nodup)
    (id host port region path fc av us : String) (p f a u : Int)
    (hp : int_of_string port = some p) (hf : int_of_string fc = some f)
    (ha : int_of_string av = some a) (hu : int_of_string us = some u) :
    ∃ events,
      registryStep observers "register" [id, host, port, region, path, fc, av, us]
          = .ok events ∧
      events.map Prod.fst = observers ∧
      (∀ o ∈ observers, (events.filter fun e => e.1 == o).length = 1) ∧
      ∀ e ∈ events, e.2 = .registered ⟨id, host, p, region, path, some ⟨f, a, u⟩⟩ := by
  refine ⟨observers.map fun o =>
      (o, .registered ⟨id, host, p, region, path, some ⟨f, a, u⟩⟩), ?_, ?_, ?_, ?_⟩
  · simp [registryStep, hp, hf, ha, hu]
  · simp [Function.comp_def]
  · intro o ho
    rw [← List.countP_eq_length_filter, List.countP_map]
    exact List.count_eq_one_of_mem hnd ho
  · intro e he
    rcases List.mem_map.mp he with ⟨o, _, rfl⟩
    rfl

/-- Witness for C6 at a concrete register event and two observers. -/
theorem register_fanout_witness :
    ∃ events,
      registryStep [0, 1] "register"
          ["b1", "localhost", "4000", "eu", "/data/b1", "0", "250000000", "0"]
          = .ok events ∧
      events.map Prod.fst = [0, 1] ∧
      (∀ o ∈ ([0, 1] : List Nat), (events.filter fun e => e.1 == o).length = 1) ∧
      ∀ e ∈ events, e.2 = .registered ⟨"b1", "localhost", 4000, "eu", "/data/b1",
          some ⟨0, 250000000, 0⟩⟩ :=
  register_fanout [0, 1] (by decide) "b1" "localhost" "4000" "eu" "/data/b1"
    "0" "250000000" "0" 4000 0 250000000 0 (by decide) (by decide) (by decide)
    (by decide)

/-! ## Claim C7 -/

/-- C7 counterexample: a single bad request does crash the accept loop.
An unknown verb makes the storage node's dispatch raise
(`AttributeError` from `getattr`) with no handler around it, terminating
`Bucket.run`; and an `update` event for an unknown bucket id raises
`KeyError` inside `Manager.updated`, which runs synchronously inside the
registry's serving loop and so terminates `Subject.listen`. -/
theorem per_connection_cex :
    bucketDispatch ⟨⟨0, 250000000, 0⟩, []⟩ "FROBNICATE" [] [] = .error () ∧
    registryStep [0] "update" ["b9", "0", "10", "0"]
        = .ok [(0, .updated "b9" ⟨0, 10, 0⟩)] ∧
    manager_updated [] "b9" = .error () :=
  ⟨by rfl, by rfl, by rfl⟩

/-- C7 amended: failures during handling are not contained
per-connection.  An unknown verb at the storage node raises out of its
serving loop; a malformed `register` event (wrong token count) raises
out of the registry's loop; an `update` for an unknown bucket id raises
in the synchronous observer callback, also terminating the registry's
loop.  Only an event whose command name matches no case is ignored, with
the registry continuing to serve. -/
theorem per_connection_failures (st : BucketState) (command : String)
    (args : List String) (payload : Bytes) (observers : List Nat)
    (knownIds : List String) (id : String)
    (hcmd : lower command ∉ (["get", "put", "delete", "list", "spec"] : List String))
    (hid : id ∉ knownIds) :
    bucketDispatch st command args payload = .error () ∧
    registryStep observers "register" [] = .error () ∧
    manager_updated knownIds id = .error () ∧
    ∀ c args2, c ∉ (["register", "unregister", "update"] : List String) →
      registryStep observers c args2 = .ok [] := by
  refine ⟨?_, by rfl, ?_, ?_⟩
  · simp only [List.mem_cons, List.not_mem_nil, or_false, not_or] at hcmd
    obtain ⟨h1, h2, h3, h4, h5⟩ := hcmd
    simp [bucketDispatch, h1, h2, h3, h4, h5]
  · simp [manager_updated, hid]
  · intro c args2 hc
    simp only [List.mem_cons, List.not_mem_nil, or_false, not_or] at hc
    obtain ⟨h1, h2, h3⟩ := hc
    simp [registryStep, h1, h2, h3]

/-- Witness for the amended C7 at concrete bad requests. -/
theorem per_connection_failures_witness :
    bucketDispatch ⟨⟨0, 10, 0⟩, []⟩ "PURGE" [] [] = .error () ∧
    registryStep [0] "register" [] = .error () ∧
    manager_updated ["b1"] "b9" = .error () ∧
    ∀ c args2, c ∉ (["register", "unregister", "update"] : List String) →
      registryStep [0] c args2 = .ok [] :=
  per_connection_failures ⟨⟨0, 10, 0⟩, []⟩ "PURGE" [] [] [0] ["b1"] "b9"
    (by decide) (by decide)

/-! ## Claim C8 -/

/-- C8 counterexample: for the unknown command line `frobnicate x` the
manager sends no response and its accept loop continues, but — contrary
to the claim — it does not close the offending connection: the exception
path of `Manager.run` never calls `close` on the accepted connection
(only a spawned handler thread would have). -/
theorem manager_unknown_cex :
    managerStep ["frobnicate", "x"] = ⟨false, false, true⟩ := by
  rfl

/-- C8 amended: for every command line whose command name has no
registered handler, the manager sends no response, leaves the offending
connection unclosed (it is abandoned, not explicitly closed), and the
manager's accept loop continues. -/
theorem manager_unknown_command (command : String) (rest : List String)
    (h : HandlerRegistry_get command = none) :
    managerStep (command :: rest) = ⟨false, false, true⟩ := by
  simp [managerStep, h]

/-- Witness for the amended C8 at the concrete line `purge x`. -/
theorem manager_unknown_command_witness :
    managerStep ("purge" :: ["x"]) = ⟨false, false, true⟩ :=
  manager_unknown_command "purge" ["x"] (by rfl)

/-! ## Lemmas about UTF-8 encoding -/

theorem utf8Encode_append (a b : List Nat) :
    utf8Encode (a ++ b) = utf8Encode a ++ utf8Encode b := by
  simp [utf8Encode]

theorem utf8Encode_length_ascii (s : List Nat) (h : ∀ c ∈ s, c < 0x80) :
    (utf8Encode s).length = s.length := by
  induction s with
  | nil => rfl
  | cons c rest ih =>
    have hc : c < 0x80 := h c (List.mem_cons_self _ _)
    have ih' := ih fun x hx => h x (List.mem_cons_of_mem _ hx)
    have hlen : (utf8EncodeChar c).length = 1 := by simp [utf8EncodeChar, hc]
    calc (utf8Encode (c :: rest)).length
        = (utf8EncodeChar c).length + (utf8Encode rest).length := by
          simp [utf8Encode]
      _ = (c :: rest).length := by rw [hlen, ih']; simp; omega

/-! ## Claim C9 -/

set_option maxRecDepth 10000 in
/-- C9 counterexample: the one-character text U+00E9 encodes to 2 bytes,
well within the 1024-byte chunk size, yet `send_chunk` accepts it and
sends a frame of 1025 bytes, not 1024: the length check and the padding
both count characters, and a non-ASCII character widens the frame. -/
theorem send_chunk_cex :
    (utf8Encode [0xE9]).length = 2 ∧
    send_chunk [0xE9] = .ok (utf8Encode ([0xE9] ++ List.replicate (CHUNK_SIZE - 1) 0x20)) ∧
    (utf8Encode ([0xE9] ++ List.replicate (CHUNK_SIZE - 1) 0x20)).length = 1025 := by
  refine ⟨by rfl, by rfl, ?_⟩
  rw [utf8Encode_append, List.length_append,
      utf8Encode_length_ascii (List.replicate (CHUNK_SIZE - 1) 0x20)
        (fun c hc => by rw [List.eq_of_mem_replicate hc]; norm_num)]
  decide

/-- C9 amended: `send_chunk` raises a length error exactly when the text
exceeds `CHUNK_SIZE` *characters* (Python checks `len(content)`, a
character count, not a byte count); otherwise it pads the text with
spaces to exactly `CHUNK_SIZE` characters and sends its UTF-8 encoding as
one frame, whose size is exactly 1024 bytes whenever every character of
the text is ASCII. -/
theorem send_chunk_spec (content : List Nat) :
    (send_chunk content = .error () ↔ content.length > CHUNK_SIZE) ∧
    ∀ frame, send_chunk content = .ok frame →
      (content ++ List.replicate (CHUNK_SIZE - content.length) 0x20).length
          = CHUNK_SIZE ∧
      frame = utf8Encode (content ++ List.replicate (CHUNK_SIZE - content.length) 0x20) ∧
      ((∀ c ∈ content, c < 0x80) → frame.length = CHUNK_SIZE) := by
  constructor
  · unfold send_chunk
    by_cases h : content.length > CHUNK_SIZE
    · simp [h]
    · simp [h]
  · intro frame hframe
    unfold send_chunk at hframe
    by_cases h : content.length > CHUNK_SIZE
    · simp [h] at hframe
    · simp only [if_neg h, Except.ok.injEq] at hframe
      have hpad : (content ++ List.replicate (CHUNK_SIZE - content.length) 0x20).length
          = CHUNK_SIZE := by
        rw [List.length_append, List.length_replicate]
        omega
      refine ⟨hpad, hframe.symm, ?_⟩
      intro hasc
      rw [← hframe]
      rw [utf8Encode_length_ascii]
      · exact hpad
      · intro c hc
        rcases List.mem_append.mp hc with hcl | hcr
        · exact hasc c hcl
        · rw [List.eq_of_mem_replicate hcr]
          norm_num

/-- Witness for the amended C9 at the two-character ASCII text "hi". -/
theorem send_chunk_spec_witness :
    (send_chunk [104, 105] = .error ()
        ↔ ([104, 105] : List Nat).length > CHUNK_SIZE) ∧
    ∀ frame, send_chunk [104, 105] = .ok frame →
      (([104, 105] : List Nat)
          ++ List.replicate (CHUNK_SIZE - ([104, 105] : List Nat).length) 0x20).length
          = CHUNK_SIZE ∧
      frame = utf8Encode (([104, 105] : List Nat)
          ++ List.replicate (CHUNK_SIZE - ([104, 105] : List Nat).length) 0x20) ∧
      ((∀ c ∈ ([104, 105] : List Nat), c < 0x80) → frame.length = CHUNK_SIZE) :=
  send_chunk_spec [104, 105]

/-! ## Claim C10 -/

/-- C10: the storage node's PUT and the manager's upload handler read the
payload with a single `receive` call returning at most `CHUNK_SIZE`
bytes; when the client's payload is longer than what that single call
delivered, the content stored by PUT and the content written to every
replica by the upload handler is that same strict prefix of the payload,
at most 1024 bytes long. -/
theorem single_receive_prefix (stream : Bytes) (k : Nat) (st : BucketState)
    (filename : String) (region : Region) (buckets : List BucketHandle)
    (h : (receive stream k).length < stream.length) :
    (receive stream k).length ≤ CHUNK_SIZE ∧
    (∃ rest, rest ≠ [] ∧ receive stream k ++ rest = stream) ∧
    receive stream k ≠ stream ∧
    ((handle_put st filename (receive stream k)).2 = .OK →
      lookupFile (handle_put st filename (receive stream k)).1.files filename
        = some (receive stream k)) ∧
    ∀ w ∈ (upload_handle region buckets filename (receive stream k)).1,
      w.2.2 = receive stream k := by
  refine ⟨?_, ?_, ?_, ?_, ?_⟩
  · simp only [receive, List.length_take]
    omega
  · refine ⟨stream.drop (min k CHUNK_SIZE), ?_, List.take_append_drop _ _⟩
    apply List.ne_nil_of_length_pos
    simp only [receive, List.length_take] at h
    simp only [List.length_drop]
    omega
  · intro heq
    rw [heq] at h
    exact lt_irrefl _ h
  · intro hok
    unfold handle_put at hok ⊢
    by_cases hc : (((receive stream k).length : Nat) : Int) > st.spec.available_space
    · simp [hc] at hok
    · simp [hc, lookupFile_writeFile_self]
  · intro w hw
    unfold upload_handle at hw
    cases h1 : select_bucket region (((receive stream k).length : Nat) : Int) buckets with
    | error e => rw [h1] at hw; simp at hw
    | ok o =>
      cases o with
      | none => rw [h1] at hw; simp at hw
      | some main =>
        rw [h1] at hw
        dsimp only at hw
        cases h2 : select_bucket region (((receive stream k).length : Nat) : Int)
            (buckets.filter fun b => b.id != main.id) with
        | error e => rw [h2] at hw; simp at hw
        | ok o2 =>
          cases o2 with
          | none =>
            rw [h2] at hw
            simp only [List.mem_singleton] at hw
            rw [hw]
          | some backup =>
            rw [h2] at hw
            simp only [List.mem_cons, List.mem_singleton, List.not_mem_nil,
              or_false] at hw
            rcases hw with hw | hw <;> rw [hw]

/-- Witness for C10: a 3-byte payload of which the single receive call
delivers only the first 2 bytes. -/
theorem single_receive_prefix_witness :
    (receive [1, 2, 3] 2).length ≤ CHUNK_SIZE ∧
    (∃ rest, rest ≠ [] ∧ receive [1, 2, 3] 2 ++ rest = [1, 2, 3]) ∧
    receive [1, 2, 3] 2 ≠ [1, 2, 3] ∧
    ((handle_put ⟨⟨0, 10, 0⟩, []⟩ "f" (receive [1, 2, 3] 2)).2 = .OK →
      lookupFile (handle_put ⟨⟨0, 10, 0⟩, []⟩ "f" (receive [1, 2, 3] 2)).1.files "f"
        = some (receive [1, 2, 3] 2)) ∧
    ∀ w ∈ (upload_handle .latinAmerica
        [⟨"b1", .usEast, some ⟨0, 100, 0⟩⟩] "f" (receive [1, 2, 3] 2)).1,
      w.2.2 = receive [1, 2, 3] 2 :=
  single_receive_prefix [1, 2, 3] 2 ⟨⟨0, 10, 0⟩, []⟩ "f" .latinAmerica
    [⟨"b1", .usEast, some ⟨0, 100, 0⟩⟩] (by decide)

end C9
